import Mathlib

/-!
Verification of the `DiveComputer` component of the Wearable-Technologies
repository (src/diving_data.py). The state and every calculation method of
the Python class are embedded as Lean definitions over ℚ; the unguarded
division in `calculate_safe_stop_time` (which raises `ZeroDivisionError` in
Python when `ascent_rate = 0`) is modelled by an `Option ℚ` result, with
`none` standing for the crash.
-/

/-- The mutable state of the Python class `DiveComputer` (its `__init__`
fields): oxygen fraction `fo2`, current `depth` in meters, the optional
dive `start_time` timestamp, the last computed `dive_time` in minutes and
the `ascent_rate` in meters/minute. -/
structure DiveComputer where
  fo2 : ℚ
  depth : ℚ
  start_time : Option ℚ
  dive_time : ℚ
  ascent_rate : ℚ
  deriving Repr, DecidableEq

/-- `DiveComputer.__init__(fo2=0.21)`: depth 0, no start time, dive time 0,
ascent rate 0. -/
def DiveComputer.init (fo2 : ℚ := 0.21) : DiveComputer :=
  { fo2 := fo2, depth := 0, start_time := none, dive_time := 0, ascent_rate := 0 }

/-- `update_ascent_rate`: replace `ascent_rate` unconditionally. -/
def update_ascent_rate (c : DiveComputer) (new_rate : ℚ) : DiveComputer :=
  { c with ascent_rate := new_rate }

/-- `update_depth`: replace `depth` unconditionally. -/
def update_depth (c : DiveComputer) (new_depth : ℚ) : DiveComputer :=
  { c with depth := new_depth }

/-- `start_dive`: record the current clock value as the start time. The
clock reading `now` is passed explicitly (Python reads `time.time()`). -/
def start_dive (c : DiveComputer) (now : ℚ) : DiveComputer :=
  { c with start_time := some now }

/-- `stop_dive`: clear the start time; every other field is untouched. -/
def stop_dive (c : DiveComputer) : DiveComputer :=
  { c with start_time := none }

/-- `calculate_dive_time`: if a start time is present, recompute
`dive_time = (now - start_time) / 60`; otherwise the state is unchanged. -/
def calculate_dive_time (c : DiveComputer) (now : ℚ) : DiveComputer :=
  match c.start_time with
  | some t => { c with dive_time := (now - t) / 60 }
  | none => c

/-- The session is active exactly while a start time is recorded
(`self.start_time is not None` in the Python code). -/
def dive_active (c : DiveComputer) : Bool :=
  c.start_time.isSome

/-- `calculate_PO2`: ambient pressure `1 + depth / 10` ATA times the oxygen
fraction. -/
def calculate_PO2 (c : DiveComputer) : ℚ :=
  c.fo2 * (1 + c.depth / 10)

/-- `calculate_NDL`: the if/elif step table on `depth`. -/
def calculate_NDL (c : DiveComputer) : ℚ :=
  if c.depth ≤ 12 then 60
  else if c.depth ≤ 18 then 50
  else if c.depth ≤ 24 then 40
  else if c.depth ≤ 30 then 25
  else 20

/-- The `cns_limits` dict of `calculate_CNS`, listed in the ascending key
order produced by `sorted(cns_limits.keys())`. -/
def cnsTable : List (ℚ × ℚ) :=
  [(1, 570), (1.1, 480), (1.2, 420), (1.3, 360),
   (1.4, 300), (1.5, 240), (1.6, 150), (1.7, 120),
   (1.8, 90), (1.9, 60), (2, 45), (2.1, 30),
   (2.2, 25), (2.3, 20), (2.4, 15), (2.5, 10),
   (2.6, 8), (2.7, 6), (2.8, 5), (2.9, 4), (3, 3)]

/-- The bracket-search loop of `calculate_CNS`: walk consecutive key pairs
of the sorted table and, at the first pair with `k1 ≤ po2 < k2`, return the
linearly interpolated limit time (the Python loop breaks there); `none` is
the loop falling through with `limit_time` still `None`. -/
def interpSearch : List (ℚ × ℚ) → ℚ → Option ℚ
  | (k1, v1) :: (k2, v2) :: rest, po2 =>
      if k1 ≤ po2 ∧ po2 < k2 then
        some ((v2 - v1) / (k2 - k1) * (po2 - k1) + v1)
      else
        interpSearch ((k2, v2) :: rest) po2
  | _, _ => none

/-- The limit time finally used by `calculate_CNS`: the interpolated value
when the loop found a bracket, otherwise the last key's limit (3) when
`po2 >= 3.0` and the first key's limit (570) when it did not reach 1.0. -/
def limitTime (po2 : ℚ) : ℚ :=
  match interpSearch cnsTable po2 with
  | some t => t
  | none => if 3 ≤ po2 then 3 else 570

/-- `calculate_CNS`: `(dive_time / limit_time) * 100` with the limit time
looked up from the current PO2. -/
def calculate_CNS (c : DiveComputer) : ℚ :=
  c.dive_time / limitTime (calculate_PO2 c) * 100

/-- `calculate_safe_stop_time`: 0 at depth ≤ 3, otherwise
`(depth - 3) / ascent_rate`; the division by a zero `ascent_rate` raises
`ZeroDivisionError` in Python, modelled here as `none`. -/
def calculate_safe_stop_time (c : DiveComputer) : Option ℚ :=
  if 3 < c.depth then
    if c.ascent_rate = 0 then none
    else some ((c.depth - 3) / c.ascent_rate)
  else some 0

lemma interpSearch_mem (l : List (ℚ × ℚ)) :
    ∀ p v : ℚ, interpSearch l p = some v →
      ∃ pr ∈ l.zip l.tail, pr.1.1 ≤ p ∧ p < pr.2.1 ∧
        v = (pr.2.2 - pr.1.2) / (pr.2.1 - pr.1.1) * (p - pr.1.1) + pr.1.2 := by
  induction l with
  | nil => intro p v h; simp [interpSearch] at h
  | cons a l ih =>
    intro p v h
    obtain ⟨k1, v1⟩ := a
    cases l with
    | nil => simp [interpSearch] at h
    | cons b rest =>
      obtain ⟨k2, v2⟩ := b
      simp only [interpSearch] at h
      split_ifs at h with hc
      · refine ⟨((k1, v1), (k2, v2)), ?_, hc.1, hc.2, ?_⟩
        · simp [List.zip_cons_cons]
        · exact (Option.some.inj h).symm
      · obtain ⟨pr, hmem, h1, h2, h3⟩ := ih p v h
        refine ⟨pr, ?_, h1, h2, h3⟩
        rw [List.tail_cons, List.zip_cons_cons]
        exact List.mem_cons_of_mem _ hmem

lemma interpSearch_none_all_le (l : List (ℚ × ℚ)) :
    ∀ k1 v1 p : ℚ, interpSearch ((k1, v1) :: l) p = none → k1 ≤ p →
      ∀ pr ∈ (k1, v1) :: l, pr.1 ≤ p := by
  induction l with
  | nil =>
    intro k1 v1 p _ hk pr hpr
    rcases List.mem_cons.1 hpr with heq | hmem
    · subst heq; exact hk
    · simp at hmem
  | cons b rest ih =>
    intro k1 v1 p h hk
    obtain ⟨k2, v2⟩ := b
    simp only [interpSearch] at h
    split_ifs at h with hc
    push_neg at hc
    have hk2 : k2 ≤ p := hc hk
    have htail := ih k2 v2 p h hk2
    intro pr hpr
    rcases List.mem_cons.1 hpr with heq | hmem
    · subst heq; exact hk
    · exact htail pr hmem

lemma interpSearch_none_of_lt (l : List (ℚ × ℚ)) :
    ∀ p : ℚ, (∀ pr ∈ l, p < pr.1) → interpSearch l p = none := by
  induction l with
  | nil => intro p _; simp [interpSearch]
  | cons a l ih =>
    intro p h
    obtain ⟨k1, v1⟩ := a
    cases l with
    | nil => simp [interpSearch]
    | cons b rest =>
      obtain ⟨k2, v2⟩ := b
      have h1 : p < k1 := h (k1, v1) (by simp)
      simp only [interpSearch]
      rw [if_neg (by rintro ⟨hle, -⟩; linarith)]
      exact ih p (fun pr hpr => h pr (List.mem_cons_of_mem _ hpr))

lemma interpSearch_none_of_ge (l : List (ℚ × ℚ)) :
    ∀ p : ℚ, (∀ pr ∈ l.tail, pr.1 ≤ p) → interpSearch l p = none := by
  induction l with
  | nil => intro p _; simp [interpSearch]
  | cons a l ih =>
    intro p h
    obtain ⟨k1, v1⟩ := a
    cases l with
    | nil => simp [interpSearch]
    | cons b rest =>
      obtain ⟨k2, v2⟩ := b
      rw [List.tail_cons] at h
      have h2 : k2 ≤ p := h (k2, v2) (by simp)
      simp only [interpSearch]
      rw [if_neg (by rintro ⟨-, hlt⟩; linarith)]
      exact ih p (fun pr hpr => h pr (List.mem_cons_of_mem _ hpr))

lemma lerp_ge (c k1 k2 v1 v2 p : ℚ) (hk : k1 < k2) (hp1 : k1 ≤ p) (hp2 : p < k2)
    (h1 : c ≤ v1) (h2 : c ≤ v2) :
    c ≤ (v2 - v1) / (k2 - k1) * (p - k1) + v1 := by
  have hc : 0 < k2 - k1 := by linarith
  have key : (v2 - v1) / (k2 - k1) * (p - k1) + v1 - c =
      ((v1 - c) * (k2 - p) + (v2 - c) * (p - k1)) / (k2 - k1) := by
    field_simp
    ring
  have hnum : 0 ≤ (v1 - c) * (k2 - p) + (v2 - c) * (p - k1) := by
    have ha := mul_nonneg (by linarith : (0:ℚ) ≤ v1 - c) (by linarith : (0:ℚ) ≤ k2 - p)
    have hb := mul_nonneg (by linarith : (0:ℚ) ≤ v2 - c) (by linarith : (0:ℚ) ≤ p - k1)
    linarith
  have hd := div_nonneg hnum hc.le
  rw [← key] at hd
  linarith

lemma cnsTable_keys_ge_one : ∀ pr ∈ cnsTable, 1 ≤ pr.1 := by
  norm_num [cnsTable]

lemma cnsTable_tail_keys_le_three : ∀ pr ∈ cnsTable.tail, pr.1 ≤ 3 := by
  norm_num [cnsTable]

lemma cnsTable_pairs :
    ∀ pr ∈ cnsTable.zip cnsTable.tail, pr.1.1 < pr.2.1 ∧ 3 ≤ pr.1.2 ∧ 3 ≤ pr.2.2 := by
  norm_num [cnsTable]

lemma limitTime_of_some (p v : ℚ) (h : interpSearch cnsTable p = some v) :
    limitTime p = v := by
  unfold limitTime
  rw [h]

lemma limitTime_of_none (p : ℚ) (h : interpSearch cnsTable p = none) :
    limitTime p = if 3 ≤ p then 3 else 570 := by
  unfold limitTime
  rw [h]

lemma limitTime_bracket (p : ℚ) (h1 : 1 ≤ p) (h2 : p < 3) :
    ∃ pr ∈ cnsTable.zip cnsTable.tail, pr.1.1 ≤ p ∧ p < pr.2.1 ∧
      limitTime p = (pr.2.2 - pr.1.2) / (pr.2.1 - pr.1.1) * (p - pr.1.1) + pr.1.2 := by
  cases hs : interpSearch cnsTable p with
  | none =>
    exfalso
    have hs2 : interpSearch ((1, 570) :: cnsTable.tail) p = none := hs
    have hall := interpSearch_none_all_le cnsTable.tail 1 570 p hs2 h1
    have h3 := hall (3, 3) (by norm_num [cnsTable])
    norm_num at h3
    linarith
  | some v =>
    obtain ⟨pr, hmem, ha, hb, hv⟩ := interpSearch_mem cnsTable p v hs
    exact ⟨pr, hmem, ha, hb, by rw [limitTime_of_some p v hs]; exact hv⟩

/-- C1: the claim fails on the code. At depth 4 with the default ascent
rate 0 (so depth > 3 and ascent_rate ≤ 0), `calculate_safe_stop_time`
reaches the unguarded division by `ascent_rate`: Python raises an
unhandled `ZeroDivisionError` (modelled as `none`) rather than failing
with a clearly named error or returning a sentinel value. -/
theorem C1_zero_rate_division_crashes :
    calculate_safe_stop_time ⟨0.21, 4, none, 0, 0⟩ = none := by
  norm_num [calculate_safe_stop_time]

/-- C2: `calculate_NDL` returns 60, 60, 50, 50, 40, 25, 20 at depths
0, 12, 12.01, 18, 24, 30, 31 respectively; each band boundary is inclusive
on its upper bound (depth exactly 12 gives 60, not 50). -/
theorem C2_ndl_step_table (s : DiveComputer) :
    calculate_NDL (update_depth s 0) = 60 ∧
    calculate_NDL (update_depth s 12) = 60 ∧
    calculate_NDL (update_depth s 12.01) = 50 ∧
    calculate_NDL (update_depth s 18) = 50 ∧
    calculate_NDL (update_depth s 24) = 40 ∧
    calculate_NDL (update_depth s 30) = 25 ∧
    calculate_NDL (update_depth s 31) = 20 := by
  norm_num [calculate_NDL, update_depth]

/-- C3: for a computed PO2 in [1, 3), `calculate_CNS` brackets the PO2
between two consecutive breakpoints of the 21-entry table, linearly
interpolates the limit time between them, and returns
(dive_time / limit_time) * 100; in particular with dive_time = 1 and PO2
exactly 1.5 it returns (1/240) * 100. -/
theorem C3_cns_interpolation (s : DiveComputer)
    (h1 : 1 ≤ calculate_PO2 s) (h2 : calculate_PO2 s < 3) :
    (∃ pr ∈ cnsTable.zip cnsTable.tail,
        pr.1.1 ≤ calculate_PO2 s ∧ calculate_PO2 s < pr.2.1 ∧
        calculate_CNS s = s.dive_time /
          ((pr.2.2 - pr.1.2) / (pr.2.1 - pr.1.1) * (calculate_PO2 s - pr.1.1) + pr.1.2)
          * 100) ∧
    (s.dive_time = 1 → calculate_PO2 s = 1.5 → calculate_CNS s = (1 / 240) * 100) := by
  constructor
  · obtain ⟨pr, hmem, ha, hb, heq⟩ := limitTime_bracket (calculate_PO2 s) h1 h2
    exact ⟨pr, hmem, ha, hb, by simp only [calculate_CNS]; rw [heq]⟩
  · intro hd hp
    simp only [calculate_CNS]
    rw [hd, hp, limitTime_of_some 1.5 240 (by norm_num [interpSearch, cnsTable])]

/-- Witness for C3: fo2 = 0.5 at depth 20 gives PO2 = 1.5 exactly; with
dive_time = 1 the CNS percentage is (1/240) * 100. -/
theorem C3_witness :
    calculate_CNS ⟨0.5, 20, none, 1, 0⟩ = (1 / 240) * 100 :=
  (C3_cns_interpolation ⟨0.5, 20, none, 1, 0⟩
      (by norm_num [calculate_PO2]) (by norm_num [calculate_PO2])).2
    rfl (by norm_num [calculate_PO2])

/-- C4: a computed PO2 below 1.0 uses limit time 570 (the limit of the
lowest key 1.0) and a PO2 at or above 3.0 uses limit time 3 (the limit of
the highest key); the table is never extrapolated. -/
theorem C4_cns_edge_clamping (s : DiveComputer) :
    (calculate_PO2 s < 1 →
      limitTime (calculate_PO2 s) = 570 ∧ calculate_CNS s = s.dive_time / 570 * 100) ∧
    (3 ≤ calculate_PO2 s →
      limitTime (calculate_PO2 s) = 3 ∧ calculate_CNS s = s.dive_time / 3 * 100) := by
  constructor
  · intro h
    have hnone : interpSearch cnsTable (calculate_PO2 s) = none := by
      apply interpSearch_none_of_lt
      intro pr hpr
      have := cnsTable_keys_ge_one pr hpr
      linarith
    have hlim : limitTime (calculate_PO2 s) = 570 := by
      rw [limitTime_of_none _ hnone, if_neg (by linarith)]
    exact ⟨hlim, by simp only [calculate_CNS]; rw [hlim]⟩
  · intro h
    have hnone : interpSearch cnsTable (calculate_PO2 s) = none := by
      apply interpSearch_none_of_ge
      intro pr hpr
      have := cnsTable_tail_keys_le_three pr hpr
      linarith
    have hlim : limitTime (calculate_PO2 s) = 3 := by
      rw [limitTime_of_none _ hnone, if_pos h]
    exact ⟨hlim, by simp only [calculate_CNS]; rw [hlim]⟩

/-- Witness for C4: air (fo2 = 0.21) at the surface gives PO2 = 0.21 < 1
and limit 570; pure oxygen at depth 25 gives PO2 = 3.5 ≥ 3 and limit 3. -/
theorem C4_witness :
    limitTime (calculate_PO2 ⟨0.21, 0, none, 1, 0⟩) = 570 ∧
    limitTime (calculate_PO2 ⟨1, 25, none, 1, 0⟩) = 3 :=
  ⟨((C4_cns_edge_clamping ⟨0.21, 0, none, 1, 0⟩).1 (by norm_num [calculate_PO2])).1,
   ((C4_cns_edge_clamping ⟨1, 25, none, 1, 0⟩).2 (by norm_num [calculate_PO2])).1⟩

/-- C5: `calculate_PO2` equals `fo2 * (1 + depth / 10)` and, for a fixed
oxygen fraction in (0, 1], is strictly increasing in depth. -/
theorem C5_po2_formula_strict_mono :
    (∀ s : DiveComputer, calculate_PO2 s = s.fo2 * (1 + s.depth / 10)) ∧
    (∀ (s : DiveComputer) (d1 d2 : ℚ), 0 < s.fo2 → s.fo2 ≤ 1 → d1 < d2 →
      calculate_PO2 (update_depth s d1) < calculate_PO2 (update_depth s d2)) := by
  constructor
  · intro s; rfl
  · intro s d1 d2 hpos hle hlt
    simp only [calculate_PO2, update_depth]
    have h : (1 : ℚ) + d1 / 10 < 1 + d2 / 10 := by linarith
    exact mul_lt_mul_of_pos_left h hpos

/-- Witness for C5: with fo2 = 0.21, PO2 at depth 5 is below PO2 at
depth 10. -/
theorem C5_witness :
    calculate_PO2 (update_depth (DiveComputer.init 0.21) 5) <
      calculate_PO2 (update_depth (DiveComputer.init 0.21) 10) :=
  C5_po2_formula_strict_mono.2 (DiveComputer.init 0.21) 5 10
    (by norm_num [DiveComputer.init]) (by norm_num [DiveComputer.init]) (by norm_num)

/-- C6: at depth ≤ 3 the safe-stop time is 0 whatever the ascent rate; at
depth > 3 with a positive ascent rate it is (depth - 3) / ascent_rate, so
depth 12 at rate 9 gives exactly 1 minute. -/
theorem C6_safe_stop_cases (s : DiveComputer) :
    (s.depth ≤ 3 → calculate_safe_stop_time s = some 0) ∧
    (3 < s.depth → 0 < s.ascent_rate →
      calculate_safe_stop_time s = some ((s.depth - 3) / s.ascent_rate)) ∧
    (s.depth = 12 → s.ascent_rate = 9 → calculate_safe_stop_time s = some 1) := by
  refine ⟨?_, ?_, ?_⟩
  · intro h
    simp only [calculate_safe_stop_time]
    rw [if_neg (by linarith)]
  · intro h1 h2
    simp only [calculate_safe_stop_time]
    rw [if_pos h1, if_neg h2.ne']
  · intro h1 h2
    simp only [calculate_safe_stop_time]
    rw [h1, h2]
    norm_num

/-- Witness for C6: depth 12 at rate 9 gives 1 minute; depth 2 at rate 0
gives 0. -/
theorem C6_witness :
    calculate_safe_stop_time ⟨0.21, 12, none, 0, 9⟩ = some 1 ∧
    calculate_safe_stop_time ⟨0.21, 2, none, 0, 0⟩ = some 0 :=
  ⟨(C6_safe_stop_cases ⟨0.21, 12, none, 0, 9⟩).2.2 rfl rfl,
   (C6_safe_stop_cases ⟨0.21, 2, none, 0, 0⟩).1 (by norm_num)⟩

/-- C7: session lifecycle: a fresh session is inactive; start makes it
active; stop makes it inactive, clears the start reference and keeps the
last dive_time (start also leaves dive_time untouched);
calculate_dive_time recomputes dive_time = (now - start)/60 only while
active and leaves the state unchanged when inactive; stop on an inactive
session is a no-op. -/
theorem C7_session_lifecycle (s : DiveComputer) (fo2 now t : ℚ) :
    dive_active (DiveComputer.init fo2) = false ∧
    dive_active (start_dive s now) = true ∧
    dive_active (stop_dive s) = false ∧
    (stop_dive s).start_time = none ∧
    (stop_dive s).dive_time = s.dive_time ∧
    (start_dive s now).dive_time = s.dive_time ∧
    (s.start_time = some t →
      calculate_dive_time s now = { s with dive_time := (now - t) / 60 }) ∧
    (s.start_time = none → calculate_dive_time s now = s) ∧
    (s.start_time = none → stop_dive s = s) := by
  refine ⟨rfl, rfl, rfl, rfl, rfl, rfl, ?_, ?_, ?_⟩
  · intro h
    simp only [calculate_dive_time, h]
  · intro h
    simp only [calculate_dive_time, h]
  · intro h
    obtain ⟨f, d, st, dt, ar⟩ := s
    simp only at h
    subst h
    rfl

/-- Witness for C7: with start time 60 and clock 120 the recompute sets
dive_time to 1 minute; with no start time both recompute and stop leave
the state untouched. -/
theorem C7_witness :
    calculate_dive_time ⟨0.21, 0, some 60, 0, 0⟩ 120 =
      { fo2 := 0.21, depth := 0, start_time := some 60, dive_time := 1, ascent_rate := 0 } ∧
    calculate_dive_time ⟨0.21, 0, none, 5, 0⟩ 120 = ⟨0.21, 0, none, 5, 0⟩ ∧
    stop_dive ⟨0.21, 0, none, 5, 0⟩ = ⟨0.21, 0, none, 5, 0⟩ := by
  refine ⟨?_, ?_, ?_⟩
  · have h := (C7_session_lifecycle ⟨0.21, 0, some 60, 0, 0⟩ 0.21 120 60).2.2.2.2.2.2.1 rfl
    rw [h]
    norm_num
  · exact (C7_session_lifecycle ⟨0.21, 0, none, 5, 0⟩ 0.21 120 0).2.2.2.2.2.2.2.1 rfl
  · exact (C7_session_lifecycle ⟨0.21, 0, none, 5, 0⟩ 0.21 120 0).2.2.2.2.2.2.2.2 rfl

/-- C8: update_depth and update_ascent_rate replace exactly their own
field with the given value (negative values included, no validation or
clamping) and repeated calls are last-write-wins. -/
theorem C8_updates_last_write_wins (s : DiveComputer) (v v1 v2 : ℚ) :
    (update_depth s v).depth = v ∧
    update_depth s v = { s with depth := v } ∧
    (update_depth (update_depth s v1) v2).depth = v2 ∧
    (update_ascent_rate s v).ascent_rate = v ∧
    update_ascent_rate s v = { s with ascent_rate := v } ∧
    (update_ascent_rate (update_ascent_rate s v1) v2).ascent_rate = v2 :=
  ⟨rfl, rfl, rfl, rfl, rfl, rfl⟩

/-- C9: for every state the limit time used by calculate_CNS is at least
3, hence nonzero: the division in calculate_CNS never divides by zero. -/
theorem C9_limit_time_at_least_three (s : DiveComputer) :
    3 ≤ limitTime (calculate_PO2 s) ∧ limitTime (calculate_PO2 s) ≠ 0 := by
  suffices h : 3 ≤ limitTime (calculate_PO2 s) by
    refine ⟨h, ?_⟩
    intro h0
    rw [h0] at h
    norm_num at h
  cases hs : interpSearch cnsTable (calculate_PO2 s) with
  | none =>
    rw [limitTime_of_none _ hs]
    split_ifs <;> norm_num
  | some v =>
    rw [limitTime_of_some _ v hs]
    obtain ⟨pr, hmem, ha, hb, hv⟩ := interpSearch_mem cnsTable (calculate_PO2 s) v hs
    obtain ⟨hk, hv1, hv2⟩ := cnsTable_pairs pr hmem
    rw [hv]
    exact lerp_ge 3 pr.1.1 pr.2.1 pr.1.2 pr.2.2 (calculate_PO2 s) hk ha hb hv1 hv2

/-- C10: calculate_NDL is non-increasing in depth and always returns one
of the five values 60, 50, 40, 25, 20. -/
theorem C10_ndl_antitone_range (s : DiveComputer) (d1 d2 : ℚ) (h : d1 ≤ d2) :
    calculate_NDL (update_depth s d2) ≤ calculate_NDL (update_depth s d1) ∧
    (calculate_NDL s = 60 ∨ calculate_NDL s = 50 ∨ calculate_NDL s = 40 ∨
      calculate_NDL s = 25 ∨ calculate_NDL s = 20) := by
  constructor
  · simp only [calculate_NDL, update_depth]
    split_ifs <;> linarith
  · simp only [calculate_NDL]
    split_ifs <;> norm_num

/-- Witness for C10: depths 5 ≤ 20, NDL at 20 is at most NDL at 5. -/
theorem C10_witness :
    calculate_NDL (update_depth (DiveComputer.init 0.21) 20) ≤
      calculate_NDL (update_depth (DiveComputer.init 0.21) 5) ∧
    (calculate_NDL (DiveComputer.init 0.21) = 60 ∨
      calculate_NDL (DiveComputer.init 0.21) = 50 ∨
      calculate_NDL (DiveComputer.init 0.21) = 40 ∨
      calculate_NDL (DiveComputer.init 0.21) = 25 ∨
      calculate_NDL (DiveComputer.init 0.21) = 20) :=
  C10_ndl_antitone_range (DiveComputer.init 0.21) 5 20 (by norm_num)
